import Mathlib

/-!
Shallow embedding of `src/y_map.rs` (the `YMap` shared-map binding of the ypy
repository) together with the parts of the repository it depends on that are
not shipped under `src/` (`shared_types.rs`, `y_transaction.rs`, the value
marshalling layer and the document engine behind `yrs::Map`), which are
modelled from the specification.  Pure Rust functions become Lean functions;
`&mut self` methods become functions returning the updated container.
-/

namespace Ypy

/-- Modelled from the spec: the Value Model (spec §3).  Values stored in a map
are JSON-like primitives; the host-language marshalling layer
(`type_conversions.rs`, not under `src/`) is out of scope, so `PyObject`
payloads are modelled by this tagged union and marshalling is the identity. -/
inductive Value where
  | vnull : Value
  | vbool : Bool → Value
  | vint : Int → Value
  | vstr : String → Value
  deriving DecidableEq, Repr

/-- Modelled from the spec: the Transaction (spec §3), an externally supplied
opaque scope token (`y_transaction.rs` is not under `src/`).  Every attached
operation threads it; its internal state is owned by the document store. -/
structure YTransaction where
  deriving DecidableEq, Repr

/-- The local table of a Detached (`Prelim`) container: the embedding of
`HashMap<String, PyObject>` as an association list with unique keys.  The hash
map is unordered, so the list order is a representation artifact; all
observable operations below are order-insensitive on well-formed tables. -/
abbrev Table := List (String × Value)

/-- Embedding of `HashMap::get`: the value stored under `k`, if any. -/
def Table.lookupKey (t : Table) (k : String) : Option Value :=
  match t with
  | [] => none
  | (k₁, v) :: rest => if k₁ = k then some v else Table.lookupKey rest k

/-- Embedding of `HashMap::insert`: replace the entry stored under `k` if one
exists, otherwise add a fresh entry. -/
def Table.insertEntry (t : Table) (k : String) (v : Value) : Table :=
  match t with
  | [] => [(k, v)]
  | (k₁, v₁) :: rest =>
      if k₁ = k then (k, v) :: rest
      else (k₁, v₁) :: Table.insertEntry rest k v

/-- Embedding of `HashMap::remove`: drop the entry stored under `k`, if any. -/
def Table.removeEntry (t : Table) (k : String) : Table :=
  match t with
  | [] => []
  | (k₁, v₁) :: rest =>
      if k₁ = k then rest
      else (k₁, v₁) :: Table.removeEntry rest k

/-- Whether some entry of the table has key `k` (a key has a live entry). -/
def Table.hasKey (t : Table) (k : String) : Bool :=
  t.any (fun p => p.1 == k)

/-- Well-formedness of a table as the image of a `HashMap`: keys are unique.
Every table a `HashMap` can hold satisfies this. -/
def Table.nodupKeys : Table → Bool
  | [] => true
  | p :: rest => (!Table.hasKey rest p.1) && Table.nodupKeys rest

/-- Strict lexicographic comparison of character lists by code point. -/
def charsLt : List Char → List Char → Bool
  | [], [] => false
  | [], _ :: _ => true
  | _ :: _, [] => false
  | a :: as, b :: bs =>
      if a.val < b.val then true
      else if b.val < a.val then false
      else charsLt as bs

/-- Strict lexicographic order on string keys, by UTF-8 code points. -/
def keyLt (a b : String) : Bool := charsLt a.data b.data

/-- Key-sorted form of a table: two tables represent the same string-keyed
mapping (the same Python `dict`, whose equality ignores insertion order)
exactly when their canonical forms agree. -/
def Table.insertSorted (p : String × Value) : Table → Table
  | [] => [p]
  | q :: rest =>
      if keyLt p.1 q.1 then p :: q :: rest
      else q :: Table.insertSorted p rest

/-- Canonicalisation of a table into its key-sorted form. -/
def Table.canonical (t : Table) : Table :=
  t.foldr Table.insertSorted []

/-- Modelled from the spec: the document engine's map state behind an
`Attached` handle (spec §6, `engine.map*` calls; the `yrs` engine is an
external collaborator).  Within one transaction the engine provides session
consistency — writes are applied in call order and immediately visible to
later reads in the same transaction (spec §5) — so its observable state is a
string-keyed table of live entries. -/
structure EngineMap where
  entries : Table
  deriving DecidableEq, Repr

/-- Modelled from the spec: `engine.mapLen(handle, txn) -> u32` counts live
entries. -/
def EngineMap.mapLen (em : EngineMap) (_txn : YTransaction) : Nat :=
  em.entries.length

/-- Modelled from the spec: `engine.mapGet(handle, txn, key) -> Value?`. -/
def EngineMap.mapGet (em : EngineMap) (_txn : YTransaction) (k : String) :
    Option Value :=
  em.entries.lookupKey k

/-- Modelled from the spec: `engine.mapInsert(handle, txn, key, value)`;
last-writer-wins within a transaction is immediate overwrite (spec §4.2). -/
def EngineMap.mapInsert (em : EngineMap) (_txn : YTransaction) (k : String)
    (v : Value) : EngineMap :=
  ⟨em.entries.insertEntry k v⟩

/-- Modelled from the spec: `engine.mapRemove(handle, txn, key)`; the
tombstone hides the entry from all live-entry observations. -/
def EngineMap.mapRemove (em : EngineMap) (_txn : YTransaction) (k : String) :
    EngineMap :=
  ⟨em.entries.removeEntry k⟩

/-- Modelled from the spec: `engine.mapToJson(handle, txn) -> JSONValue`,
read-only resolution of the live entries into a plain mapping. -/
def EngineMap.mapToJson (em : EngineMap) (_txn : YTransaction) : Table :=
  em.entries

/-- Modelled from the spec: `engine.mapIter(handle, txn)` produces the live
entries in unspecified order. -/
def EngineMap.mapIter (em : EngineMap) (_txn : YTransaction) : Table :=
  em.entries

/-- Modelled from the spec: the dual-state container tag of
`shared_types.rs` (not under `src/`), used throughout `y_map.rs`:
`Integrated` holds an engine handle (Attached), `Prelim` a local table
(Detached).  Exactly one of the two holds at any time (spec §3). -/
inductive SharedType (α : Type) (β : Type) where
  | Integrated : α → SharedType α β
  | Prelim : β → SharedType α β
  deriving DecidableEq, Repr

/-- Embedding of `pub struct YMap(pub SharedType<Map, HashMap<String, PyObject>>)`. -/
structure YMap where
  st : SharedType EngineMap Table
  deriving DecidableEq, Repr

/-- Embedding of the `YMap::prelim` getter: true exactly on `Prelim`. -/
def YMap.prelim (m : YMap) : Bool :=
  match m.st with
  | SharedType.Prelim _ => true
  | _ => false

/-- Embedding of `YMap::length`: dispatches on the state tag; `Integrated`
asks the engine, `Prelim` takes the local table size. -/
def YMap.length (m : YMap) (txn : YTransaction) : Nat :=
  match m.st with
  | SharedType.Integrated v => v.mapLen txn
  | SharedType.Prelim v => v.length

/-- Embedding of `YMap::to_json`: `Integrated` delegates to the engine;
`Prelim` builds a dict holding exactly the local entries.  The Rust method
takes `&self`, so it is a pure read; here it is a function of the state. -/
def YMap.to_json (m : YMap) (txn : YTransaction) : Table :=
  match m.st with
  | SharedType.Integrated v => v.mapToJson txn
  | SharedType.Prelim v => v

/-- Embedding of `YMap::set`: `Integrated` inserts through the engine,
`Prelim` is an ordinary table assignment with immediate overwrite.  The Rust
method mutates `&mut self`; here the updated container is returned. -/
def YMap.set (m : YMap) (txn : YTransaction) (key : String) (value : Value) :
    YMap :=
  match m.st with
  | SharedType.Integrated v => ⟨SharedType.Integrated (v.mapInsert txn key value)⟩
  | SharedType.Prelim v => ⟨SharedType.Prelim (v.insertEntry key value)⟩

/-- Embedding of `YMap::delete`: removes the entry under `key`, if any. -/
def YMap.delete (m : YMap) (txn : YTransaction) (key : String) : YMap :=
  match m.st with
  | SharedType.Integrated v => ⟨SharedType.Integrated (v.mapRemove txn key)⟩
  | SharedType.Prelim v => ⟨SharedType.Prelim (v.removeEntry key)⟩

/-- Embedding of `YMap::get`: the stored value, or `none` (modelling the
`py.None()` object the Rust returns) when no live entry exists.  Total: there
is no error outcome. -/
def YMap.get (m : YMap) (txn : YTransaction) (key : String) : Option Value :=
  match m.st with
  | SharedType.Integrated v => v.mapGet txn key
  | SharedType.Prelim v => v.lookupKey key

/-- Embedding of `YMap::entries`: the (key, value) sequence the iterator will
produce, in unspecified order. -/
def YMap.entries (m : YMap) (txn : YTransaction) : Table :=
  match m.st with
  | SharedType.Integrated v => v.mapIter txn
  | SharedType.Prelim v => v

/-- Whether the container has a live entry under `k`, in either state. -/
def YMap.hasEntry (m : YMap) (k : String) : Bool :=
  match m.st with
  | SharedType.Integrated v => v.entries.hasKey k
  | SharedType.Prelim v => v.hasKey k

/-- Key uniqueness of the underlying table, in either state. -/
def YMap.nodupKeys (m : YMap) : Bool :=
  match m.st with
  | SharedType.Integrated v => v.entries.nodupKeys
  | SharedType.Prelim v => v.nodupKeys

/-- A Python object used as a dictionary key in `YMap::new`: either a Python
string or some non-string object, for which the `downcast::<PyString>()` in
the constructor fails. -/
inductive PyKey where
  | pystr : String → PyKey
  | nonString : PyKey
  deriving DecidableEq, Repr

/-- Whether a constructor key is not a Python string. -/
def PyKey.isNonString : PyKey → Bool
  | PyKey.pystr _ => false
  | PyKey.nonString => true

/-- The error raised by the failed `downcast::<PyString>()` in `YMap::new`
(a Python `TypeError`, propagated by `?`). -/
inductive PyErr where
  | downcastError : PyErr
  deriving DecidableEq, Repr

/-- The entry-insertion loop of `YMap::new`: each key is downcast to a
string — aborting with the downcast error on a non-string key — and the pair
is inserted into the fresh local table. -/
def buildPrelim : List (PyKey × Value) → Table → Except PyErr Table
  | [], acc => Except.ok acc
  | (PyKey.pystr s, v) :: rest, acc => buildPrelim rest (acc.insertEntry s v)
  | (PyKey.nonString, _) :: _, _ => Except.error PyErr.downcastError

/-- Embedding of `YMap::new`: builds a `Prelim` (Detached) container from the
given Python dictionary items. -/
def YMap.new (dict : List (PyKey × Value)) : Except PyErr YMap :=
  (buildPrelim dict []).map (fun t => ⟨SharedType.Prelim t⟩)

/-- Modelled from the spec: the error kinds of the client-facing contract
(spec §7).  The error machinery lives outside `src/`. -/
inductive YError where
  | MissingTransaction : YError
  | InvalidHandle : YError
  | AlreadyShared : YError
  | InvalidKey : YError
  deriving DecidableEq, Repr

/-- Modelled from the spec: the calling convention exposing `YMap::length` to
the host, where the transaction argument may be absent; an Attached operation
invoked without a transaction fails with `MissingTransaction` (spec §4.2, §7),
while a Detached container ignores the absent argument. -/
def YMap.lengthChecked (m : YMap) (txn : Option YTransaction) :
    Except YError Nat :=
  match m.st, txn with
  | SharedType.Prelim v, _ => Except.ok v.length
  | SharedType.Integrated v, some t => Except.ok (v.mapLen t)
  | SharedType.Integrated _, none => Except.error YError.MissingTransaction

/-- Modelled from the spec: host calling convention for `YMap::get`; see
`YMap.lengthChecked`. -/
def YMap.getChecked (m : YMap) (txn : Option YTransaction) (key : String) :
    Except YError (Option Value) :=
  match m.st, txn with
  | SharedType.Prelim v, _ => Except.ok (v.lookupKey key)
  | SharedType.Integrated v, some t => Except.ok (v.mapGet t key)
  | SharedType.Integrated _, none => Except.error YError.MissingTransaction

/-- Modelled from the spec: host calling convention for `YMap::set`; see
`YMap.lengthChecked`. -/
def YMap.setChecked (m : YMap) (txn : Option YTransaction) (key : String)
    (value : Value) : Except YError YMap :=
  match m.st, txn with
  | SharedType.Prelim v, _ => Except.ok ⟨SharedType.Prelim (v.insertEntry key value)⟩
  | SharedType.Integrated v, some t =>
      Except.ok ⟨SharedType.Integrated (v.mapInsert t key value)⟩
  | SharedType.Integrated _, none => Except.error YError.MissingTransaction

/-- Modelled from the spec: host calling convention for `YMap::delete`; see
`YMap.lengthChecked`. -/
def YMap.deleteChecked (m : YMap) (txn : Option YTransaction) (key : String) :
    Except YError YMap :=
  match m.st, txn with
  | SharedType.Prelim v, _ => Except.ok ⟨SharedType.Prelim (v.removeEntry key)⟩
  | SharedType.Integrated v, some t =>
      Except.ok ⟨SharedType.Integrated (v.mapRemove t key)⟩
  | SharedType.Integrated _, none => Except.error YError.MissingTransaction

/-- Modelled from the spec: host calling convention for `YMap::to_json`; see
`YMap.lengthChecked`. -/
def YMap.toJsonChecked (m : YMap) (txn : Option YTransaction) :
    Except YError Table :=
  match m.st, txn with
  | SharedType.Prelim v, _ => Except.ok v
  | SharedType.Integrated v, some t => Except.ok (v.mapToJson t)
  | SharedType.Integrated _, none => Except.error YError.MissingTransaction

/-- Modelled from the spec: host calling convention for `YMap::entries`; see
`YMap.lengthChecked`. -/
def YMap.entriesChecked (m : YMap) (txn : Option YTransaction) :
    Except YError Table :=
  match m.st, txn with
  | SharedType.Prelim v, _ => Except.ok v
  | SharedType.Integrated v, some t => Except.ok (v.mapIter t)
  | SharedType.Integrated _, none => Except.error YError.MissingTransaction

/-- One change record of a map event, per the documented format
`{ action: add|update|delete, oldValue, newValue }`. -/
inductive KeyChange where
  | add : Value → KeyChange
  | update : Value → Value → KeyChange
  | del : Value → KeyChange
  deriving DecidableEq, Repr

/-- Modelled from the spec: the raw `yrs::types::map::MapEvent` data behind
the `inner` pointer of `YMapEvent` (the `yrs` engine is external): the target
map handle and the per-key change set resolvable against the transaction. -/
structure MapEvent where
  targetData : EngineMap
  keysData : List (String × KeyChange)
  deriving DecidableEq, Repr

/-- Embedding of `pub struct YMapEvent`: the raw pointers `inner` and `txn`
become the data they refer to, and the two memoisation fields are carried
explicitly. -/
structure YMapEvent where
  inner : MapEvent
  txn : YTransaction
  target : Option YMap
  keys : Option (List (String × KeyChange))
  deriving DecidableEq, Repr

/-- Embedding of `YMapEvent::new`: both caches start empty. -/
def YMapEvent.new (event : MapEvent) (txn : YTransaction) : YMapEvent :=
  ⟨event, txn, none, none⟩

/-- The computation the `target` getter performs on a cache miss:
`YMap::from(self.inner().target().clone())`, a fresh Integrated handle built
from the event data. -/
def YMapEvent.computeTarget (e : YMapEvent) : YMap :=
  ⟨SharedType.Integrated e.inner.targetData⟩

/-- Modelled from the spec: the dict the `keys` getter builds on a cache miss
from `self.inner().keys(self.txn())`, resolving the change set against the
transaction (the `yrs` call is external). -/
def YMapEvent.computeKeys (e : YMapEvent) : List (String × KeyChange) :=
  e.inner.keysData

/-- Embedding of the `YMapEvent::target` getter: return the cache when
populated, otherwise compute, store and return.  The Rust getter mutates
`&mut self`; here the updated event is returned alongside the result. -/
def YMapEvent.targetAcc (e : YMapEvent) : YMap × YMapEvent :=
  match e.target with
  | some t => (t, e)
  | none =>
      let t := e.computeTarget
      (t, { e with target := some t })

/-- Embedding of the `YMapEvent::keys` getter: return the cache when
populated, otherwise compute, store and return. -/
def YMapEvent.keysAcc (e : YMapEvent) : List (String × KeyChange) × YMapEvent :=
  match e.keys with
  | some ks => (ks, e)
  | none =>
      let ks := e.computeKeys
      (ks, { e with keys := some ks })

/-- A fixed transaction token for concrete scenarios. -/
def txn0 : YTransaction := ⟨⟩

/-! ### Helper lemmas about the local table -/

theorem Table.lookupKey_insertEntry_self (t : Table) (k : String) (v : Value) :
    (t.insertEntry k v).lookupKey k = some v := by
  induction t with
  | nil => simp [Table.insertEntry, Table.lookupKey]
  | cons p rest ih =>
      obtain ⟨k₁, v₁⟩ := p
      by_cases h : k₁ = k
      · simp [Table.insertEntry, h, Table.lookupKey]
      · simp [Table.insertEntry, h, Table.lookupKey, ih]

theorem Table.lookupKey_eq_none (t : Table) (k : String)
    (h : t.hasKey k = false) : t.lookupKey k = none := by
  induction t with
  | nil => rfl
  | cons p rest ih =>
      obtain ⟨k₁, v₁⟩ := p
      simp only [Table.hasKey, List.any_cons, Bool.or_eq_false_iff,
        beq_eq_false_iff_ne, ne_eq] at h
      simp only [Table.lookupKey, if_neg h.1]
      exact ih (by simpa [Table.hasKey] using h.2)

theorem Table.removeEntry_of_none (t : Table) (k : String)
    (h : t.lookupKey k = none) : t.removeEntry k = t := by
  induction t with
  | nil => rfl
  | cons p rest ih =>
      obtain ⟨k₁, v₁⟩ := p
      by_cases hk : k₁ = k
      · simp [Table.lookupKey, hk] at h
      · simp only [Table.lookupKey, if_neg hk] at h
        simp [Table.removeEntry, hk, ih h]

theorem Table.lookupKey_removeEntry_self (t : Table) (k : String)
    (h : t.nodupKeys = true) : (t.removeEntry k).lookupKey k = none := by
  induction t with
  | nil => rfl
  | cons p rest ih =>
      obtain ⟨k₁, v₁⟩ := p
      simp only [Table.nodupKeys, Bool.and_eq_true, Bool.not_eq_true'] at h
      by_cases hk : k₁ = k
      · subst hk
        simpa [Table.removeEntry] using Table.lookupKey_eq_none rest k₁ h.1
      · simp only [Table.removeEntry, if_neg hk, Table.lookupKey, if_neg hk]
        exact ih h.2

theorem Table.length_removeEntry_of_mem (t : Table) (k : String)
    (h : (t.lookupKey k).isSome = true) :
    (t.removeEntry k).length + 1 = t.length := by
  induction t with
  | nil => simp [Table.lookupKey] at h
  | cons p rest ih =>
      obtain ⟨k₁, v₁⟩ := p
      by_cases hk : k₁ = k
      · simp [Table.removeEntry, hk]
      · simp only [Table.lookupKey, if_neg hk] at h
        simp only [Table.removeEntry, if_neg hk, List.length_cons]
        have h₂ := ih h
        omega

theorem Table.removeEntry_removeEntry (t : Table) (k : String)
    (h : t.nodupKeys = true) :
    (t.removeEntry k).removeEntry k = t.removeEntry k :=
  Table.removeEntry_of_none _ _ (Table.lookupKey_removeEntry_self t k h)

theorem buildPrelim_error_of_nonString (dict : List (PyKey × Value))
    (acc : Table) (h : dict.any (fun p => p.1.isNonString) = true) :
    buildPrelim dict acc = Except.error PyErr.downcastError := by
  induction dict generalizing acc with
  | nil => simp at h
  | cons p rest ih =>
      obtain ⟨k, v⟩ := p
      cases k with
      | pystr s =>
          simp only [List.any_cons, PyKey.isNonString, Bool.false_or] at h
          exact ih _ h
      | nonString => rfl

/-! ### Claim theorems -/

/-- C1: read-your-writes — for every key `k` and value `v`, on a map in
either state, `set(txn, k, v)` followed by `get(txn, k)` within the same
transaction returns a result equal to `v`. -/
theorem ymap_set_get_read_your_writes (m : YMap) (txn : YTransaction)
    (k : String) (v : Value) : (m.set txn k v).get txn k = some v := by
  cases m with
  | mk st =>
      cases st with
      | Integrated em =>
          simpa [YMap.set, YMap.get, EngineMap.mapInsert, EngineMap.mapGet]
            using Table.lookupKey_insertEntry_self em.entries k v
      | Prelim t =>
          simpa [YMap.set, YMap.get]
            using Table.lookupKey_insertEntry_self t k v

/-- C3: for every `YMapEvent`, the `target` and `keys` getters are memoised —
the first access populates the cache with the computed value, and any later
access returns exactly the cached value with the event unchanged, without
recomputing from the event or transaction data (the result of the later access
is invariant under replacing `inner` and `txn` by arbitrary data). -/
theorem ymapEvent_target_keys_memoized (e : YMapEvent) :
    (e.targetAcc.2.target = some e.targetAcc.1 ∧
      ∀ (i : MapEvent) (t : YTransaction),
        ({ e.targetAcc.2 with inner := i, txn := t } : YMapEvent).targetAcc
          = (e.targetAcc.1, { e.targetAcc.2 with inner := i, txn := t })) ∧
    (e.keysAcc.2.keys = some e.keysAcc.1 ∧
      ∀ (i : MapEvent) (t : YTransaction),
        ({ e.keysAcc.2 with inner := i, txn := t } : YMapEvent).keysAcc
          = (e.keysAcc.1, { e.keysAcc.2 with inner := i, txn := t })) := by
  obtain ⟨inner, txn, target, keys⟩ := e
  constructor
  · cases target with
    | none => exact ⟨rfl, fun i t => rfl⟩
    | some t₀ => exact ⟨rfl, fun i t => rfl⟩
  · cases keys with
    | none => exact ⟨rfl, fun i t => rfl⟩
    | some ks₀ => exact ⟨rfl, fun i t => rfl⟩

/-- C4: for every map in either state (well-formed: unique keys, as every
`HashMap`-backed or engine-backed table is) and every key `k`: after
`delete(txn, k)`, `get(txn, k)` returns absent, and `length` is exactly one
less than before the delete if `k` was present, and unchanged if absent. -/
theorem ymap_delete_get_length (m : YMap) (txn : YTransaction) (k : String)
    (h : m.nodupKeys = true) :
    (m.delete txn k).get txn k = none ∧
    ((m.get txn k).isSome = true →
      m.length txn = (m.delete txn k).length txn + 1) ∧
    (m.get txn k = none → (m.delete txn k).length txn = m.length txn) := by
  cases m with
  | mk st =>
      cases st with
      | Integrated em =>
          refine ⟨?_, ?_, ?_⟩
          · simpa [YMap.delete, YMap.get, EngineMap.mapRemove, EngineMap.mapGet]
              using Table.lookupKey_removeEntry_self em.entries k
                (by simpa [YMap.nodupKeys] using h)
          · intro hs
            have h₂ := Table.length_removeEntry_of_mem em.entries k
              (by simpa [YMap.get, EngineMap.mapGet] using hs)
            simp only [YMap.delete, YMap.length, EngineMap.mapRemove,
              EngineMap.mapLen]
            omega
          · intro hn
            simp [YMap.delete, YMap.length, EngineMap.mapRemove,
              EngineMap.mapLen, Table.removeEntry_of_none em.entries k
                (by simpa [YMap.get, EngineMap.mapGet] using hn)]
      | Prelim tbl =>
          refine ⟨?_, ?_, ?_⟩
          · simpa [YMap.delete, YMap.get]
              using Table.lookupKey_removeEntry_self tbl k
                (by simpa [YMap.nodupKeys] using h)
          · intro hs
            have h₂ := Table.length_removeEntry_of_mem tbl k
              (by simpa [YMap.get] using hs)
            simp only [YMap.delete, YMap.length]
            omega
          · intro hn
            simp [YMap.delete, YMap.length,
              Table.removeEntry_of_none tbl k (by simpa [YMap.get] using hn)]

/-- Witness for C4 at a concrete present key and a concrete absent key. -/
theorem ymap_delete_get_length_witness :
    (YMap.mk (SharedType.Prelim [("a", Value.vint 1), ("b", Value.vint 2)])).nodupKeys
        = true ∧
    (((YMap.mk (SharedType.Prelim [("a", Value.vint 1), ("b", Value.vint 2)])).delete
        txn0 "a").get txn0 "a" = none ∧
      (((YMap.mk (SharedType.Prelim [("a", Value.vint 1), ("b", Value.vint 2)])).get
          txn0 "a").isSome = true →
        (YMap.mk (SharedType.Prelim [("a", Value.vint 1), ("b", Value.vint 2)])).length
            txn0
          = ((YMap.mk (SharedType.Prelim [("a", Value.vint 1), ("b", Value.vint 2)])).delete
              txn0 "a").length txn0 + 1) ∧
      ((YMap.mk (SharedType.Prelim [("a", Value.vint 1), ("b", Value.vint 2)])).get
          txn0 "a" = none →
        ((YMap.mk (SharedType.Prelim [("a", Value.vint 1), ("b", Value.vint 2)])).delete
            txn0 "a").length txn0
          = (YMap.mk (SharedType.Prelim [("a", Value.vint 1), ("b", Value.vint 2)])).length
              txn0)) :=
  ⟨by decide, ymap_delete_get_length _ txn0 "a" (by decide)⟩

/-- C5: delete is idempotent — on a well-formed map (unique keys), deleting
the same key twice in a row yields the same state as deleting it once, and in
particular the same results for `get`, `length` and `to_json`. -/
theorem ymap_delete_idempotent (m : YMap) (txn : YTransaction) (k : String)
    (h : m.nodupKeys = true) :
    ((m.delete txn k).delete txn k = m.delete txn k ∧
      ((m.delete txn k).delete txn k).get txn k = (m.delete txn k).get txn k) ∧
    ((m.delete txn k).delete txn k).length txn = (m.delete txn k).length txn ∧
    ((m.delete txn k).delete txn k).to_json txn = (m.delete txn k).to_json txn := by
  have hst : (m.delete txn k).delete txn k = m.delete txn k := by
    cases m with
    | mk st =>
        cases st with
        | Integrated em =>
            simp [YMap.delete, EngineMap.mapRemove,
              Table.removeEntry_removeEntry em.entries k
                (by simpa [YMap.nodupKeys] using h)]
        | Prelim tbl =>
            simp [YMap.delete,
              Table.removeEntry_removeEntry tbl k
                (by simpa [YMap.nodupKeys] using h)]
  exact ⟨⟨hst, by rw [hst]⟩, by rw [hst], by rw [hst]⟩

/-- Witness for C5 at a concrete map and key. -/
theorem ymap_delete_idempotent_witness :
    (YMap.mk (SharedType.Prelim [("a", Value.vint 1)])).nodupKeys = true ∧
    ((((YMap.mk (SharedType.Prelim [("a", Value.vint 1)])).delete txn0 "a").delete
          txn0 "a"
        = (YMap.mk (SharedType.Prelim [("a", Value.vint 1)])).delete txn0 "a" ∧
      (((YMap.mk (SharedType.Prelim [("a", Value.vint 1)])).delete txn0 "a").delete
          txn0 "a").get txn0 "a"
        = ((YMap.mk (SharedType.Prelim [("a", Value.vint 1)])).delete txn0 "a").get
            txn0 "a") ∧
      (((YMap.mk (SharedType.Prelim [("a", Value.vint 1)])).delete txn0 "a").delete
          txn0 "a").length txn0
        = ((YMap.mk (SharedType.Prelim [("a", Value.vint 1)])).delete txn0 "a").length
            txn0 ∧
      (((YMap.mk (SharedType.Prelim [("a", Value.vint 1)])).delete txn0 "a").delete
          txn0 "a").to_json txn0
        = ((YMap.mk (SharedType.Prelim [("a", Value.vint 1)])).delete txn0 "a").to_json
            txn0) :=
  ⟨by decide, ymap_delete_idempotent _ txn0 "a" (by decide)⟩

/-- C6: `get` never errors on a missing key — for every map in either state
and every key with no live entry, `get` is a total function returning the
absent result (`none`, the embedding of the `py.None()` object). -/
theorem ymap_get_missing_none (m : YMap) (txn : YTransaction) (k : String)
    (h : m.hasEntry k = false) : m.get txn k = none := by
  cases m with
  | mk st =>
      cases st with
      | Integrated em =>
          exact Table.lookupKey_eq_none em.entries k
            (by simpa [YMap.hasEntry] using h)
      | Prelim tbl =>
          exact Table.lookupKey_eq_none tbl k
            (by simpa [YMap.hasEntry] using h)

/-- Witness for C6 at a concrete missing key, in both states. -/
theorem ymap_get_missing_none_witness :
    ((YMap.mk (SharedType.Prelim [("a", Value.vint 1)])).hasEntry "b" = false ∧
      (YMap.mk (SharedType.Prelim [("a", Value.vint 1)])).get txn0 "b" = none) ∧
    ((YMap.mk (SharedType.Integrated ⟨[("a", Value.vint 1)]⟩)).hasEntry "b" = false ∧
      (YMap.mk (SharedType.Integrated ⟨[("a", Value.vint 1)]⟩)).get txn0 "b" = none) :=
  ⟨⟨by decide, ymap_get_missing_none _ txn0 "b" (by decide)⟩,
   ⟨by decide, ymap_get_missing_none _ txn0 "b" (by decide)⟩⟩

/-- C7: every Attached-only operation — `length`, `get`, `set`, `delete`,
`to_json`, `entries` on an Attached (Integrated) container — invoked without
a transaction fails with the `MissingTransaction` error. -/
theorem ymap_attached_ops_missing_transaction (em : EngineMap) (k : String)
    (v : Value) :
    (YMap.mk (SharedType.Integrated em)).lengthChecked none
        = Except.error YError.MissingTransaction ∧
    (YMap.mk (SharedType.Integrated em)).getChecked none k
        = Except.error YError.MissingTransaction ∧
    (YMap.mk (SharedType.Integrated em)).setChecked none k v
        = Except.error YError.MissingTransaction ∧
    (YMap.mk (SharedType.Integrated em)).deleteChecked none k
        = Except.error YError.MissingTransaction ∧
    (YMap.mk (SharedType.Integrated em)).toJsonChecked none
        = Except.error YError.MissingTransaction ∧
    (YMap.mk (SharedType.Integrated em)).entriesChecked none
        = Except.error YError.MissingTransaction :=
  ⟨rfl, rfl, rfl, rfl, rfl, rfl⟩

/-- C8 counterexample: constructing a map with the empty string as key does
not fail — it succeeds and stores the entry under the empty key, and `set`
with the empty key likewise stores an entry under it, contradicting the claim
that an empty key fails with `InvalidKey` and that no operation ever stores
an entry under an empty key. -/
theorem ymap_empty_key_accepted_cex :
    YMap.new [(PyKey.pystr "", Value.vint 1)]
      = Except.ok (YMap.mk (SharedType.Prelim [("", Value.vint 1)])) ∧
    ((YMap.mk (SharedType.Prelim [])).set txn0 "" (Value.vint 1)).get txn0 ""
      = some (Value.vint 1) :=
  ⟨rfl, rfl⟩

/-- C8 amended: constructing a map with a non-string key fails with the key
downcast error; the empty string, however, is accepted as a key — `new`
stores an entry under it and `set` with the empty key stores and retrieves
the value like any other key. -/
theorem ymap_key_validation_amended (dict : List (PyKey × Value)) (v : Value)
    (tbl : Table) (h : dict.any (fun p => p.1.isNonString) = true) :
    YMap.new dict = Except.error PyErr.downcastError ∧
    YMap.new [(PyKey.pystr "", v)]
      = Except.ok (YMap.mk (SharedType.Prelim [("", v)])) ∧
    ((YMap.mk (SharedType.Prelim tbl)).set txn0 "" v).get txn0 "" = some v := by
  refine ⟨?_, rfl, ?_⟩
  · simp [YMap.new, buildPrelim_error_of_nonString dict [] h, Except.map]
  · simpa [YMap.set, YMap.get] using Table.lookupKey_insertEntry_self tbl "" v

/-- Witness for the amended C8 at a concrete non-string key and table. -/
theorem ymap_key_validation_amended_witness :
    YMap.new [(PyKey.nonString, Value.vnull)]
        = Except.error PyErr.downcastError ∧
    YMap.new [(PyKey.pystr "", Value.vint 2)]
        = Except.ok (YMap.mk (SharedType.Prelim [("", Value.vint 2)])) ∧
    ((YMap.mk (SharedType.Prelim [("a", Value.vint 1)])).set txn0 ""
        (Value.vint 2)).get txn0 "" = some (Value.vint 2) :=
  ymap_key_validation_amended [(PyKey.nonString, Value.vnull)] (Value.vint 2)
    [("a", Value.vint 1)] (by decide)

/-- C9: Detached scenario — starting from a Detached map holding a ↦ 1,
`set(txn, "b", 2)` makes the snapshot equal the mapping a ↦ 1, b ↦ 2 (as a
Python dict, compared via the canonical key-sorted form); a subsequent
`delete(txn, "a")` makes `length` return 1 and the snapshot equal b ↦ 2.
The snapshot (`to_json`) takes the container by immutable reference in the
source and is a pure function of the state here, so it has no side effects
on the map: the same container value is reused after each snapshot. -/
theorem ymap_detached_scenario :
    (((YMap.mk (SharedType.Prelim [("a", Value.vint 1)])).set txn0 "b"
        (Value.vint 2)).to_json txn0).canonical
      = [("a", Value.vint 1), ("b", Value.vint 2)] ∧
    (((YMap.mk (SharedType.Prelim [("a", Value.vint 1)])).set txn0 "b"
        (Value.vint 2)).delete txn0 "a").length txn0 = 1 ∧
    ((((YMap.mk (SharedType.Prelim [("a", Value.vint 1)])).set txn0 "b"
        (Value.vint 2)).delete txn0 "a").to_json txn0).canonical
      = [("b", Value.vint 2)] ∧
    (YMap.mk (SharedType.Prelim [("a", Value.vint 1)])).prelim = true := by
  decide

/-- C10: state-tag preservation — `set` and `delete` (the only exported
operations that produce a new container state; `length`, `to_json`, `get`,
`entries` and `prelim` take the container by immutable reference and cannot
change it) leave the Detached/Attached (Prelim/Integrated) tag unchanged, so
`prelim` returns the same value before and after any such call. -/
theorem ymap_ops_preserve_state_tag (m : YMap) (txn : YTransaction)
    (k : String) (v : Value) :
    (m.set txn k v).prelim = m.prelim ∧
    (m.delete txn k).prelim = m.prelim := by
  cases m with
  | mk st => cases st with
    | Integrated em => exact ⟨rfl, rfl⟩
    | Prelim tbl => exact ⟨rfl, rfl⟩

end Ypy
